import Mathlib

/-!
# Verification of the blackboxaudio-sap pipeline

Shallow embedding of the parts of the repository that the specification
talks about, together with theorems settling the spec's claims:

* `services/aligner/aligner/fusion.py` — the alignment algorithm
  `build_perception_frames` (250 ms grid fusion of music/ASR analysis);
* `services/aligner/aligner/worker.py` — the aligner coordinator
  (`AlignerWorker.process` and `_build_and_store_frames`);
* `libs/sap_common/sap_common/valkey_streams.py` — the stream worker base
  class (retry/DLQ wrapper `_handle_message`, recovery pass in `run`);
* `services/audio_gateway/audio_gateway/ws_manager.py` — the WebSocket
  relay (`broadcast` and `_relay_loop`).

Numeric values are modelled with `ℚ` (exact arithmetic in place of Python
floats); Python dicts with fixed key sets become structures; JSON
round-trips through Valkey are modelled as the identity on typed payloads.
-/

namespace SAP

/-! ## Data model for `fusion.build_perception_frames` -/

/-- One entry of `audio_features`: a dict with keys `t`, `rms`,
`spectral_centroid` (the latter two read with `.get(…, 0.0)`). -/
structure AudioFeature where
  t : ℚ
  rms : ℚ
  spectral_centroid : ℚ
deriving DecidableEq, Repr

/-- The `tempo_result` dict: `beat_times` (read with `.get(…, [])`) and
`tempo_bpm` (read with `.get(…, 0.0)`). -/
structure TempoResult where
  beat_times : List ℚ
  tempo_bpm : ℚ
deriving DecidableEq, Repr

/-- The `key_result` dict: `key_label` and `key_scale` strings. -/
structure KeyResult where
  key_label : String
  key_scale : String
deriving DecidableEq, Repr

/-- One chord segment dict with keys `t_start`, `t_end`, `label`. -/
structure ChordSeg where
  t_start : ℚ
  t_end : ℚ
  label : String
deriving DecidableEq, Repr

/-- One transcript word dict with keys `start`, `end`, `word`
(each read with a `.get` default in the source). -/
structure Word where
  start : ℚ
  end' : ℚ
  word : String
deriving DecidableEq, Repr

/-- One transcript segment: only its `words` list is read. -/
structure TranscriptSeg where
  words : List Word
deriving DecidableEq, Repr

/-- The `audio` sub-dict of an output frame. -/
structure AudioData where
  rms : ℚ
  spectral_centroid : ℚ
deriving DecidableEq, Repr

/-- The `music` sub-dict of an output frame. -/
structure MusicData where
  chord : String
  key : String
  bpm : ℚ
  beat : Bool
deriving DecidableEq, Repr

/-- The `speech` sub-dict of an output frame (JSON keys `text_partial`
and `words`). -/
structure SpeechData where
  textPartial : String
  words : List String
deriving DecidableEq, Repr

/-- One perception frame produced by `build_perception_frames`. -/
structure Frame where
  session_id : String
  t : ℚ
  audio : AudioData
  music : MusicData
  speech : SpeechData
deriving DecidableEq, Repr

/-- `FRAME_RESOLUTION = 0.250` (250 ms grid step). -/
def FRAME_RESOLUTION : ℚ := 0.250

/-- Python `int(q)` on a rational: truncation toward zero. -/
def pyInt (q : ℚ) : ℤ := if 0 ≤ q then ⌊q⌋ else ⌈q⌉

/-- Python `round(q, 4)`: round to 4 decimal places.  (Python uses
round-half-to-even at exact `0.00005` ties; the two conventions agree on
every value appearing in the claims — in particular on every grid time
`i * 0.250`, which is an exact multiple of `0.0001`.) -/
def roundTo4 (q : ℚ) : ℚ := (round (q * 10000) : ℤ) / 10000

/-- Python `str.strip()`: drop leading and trailing whitespace. -/
def pyStrip (s : String) : String :=
  String.mk (((s.data.dropWhile Char.isWhitespace).reverse.dropWhile
    Char.isWhitespace).reverse)

/-- `bisect.bisect_left(l, x)`: on the sorted lists it is applied to in
`build_perception_frames`, the leftmost insertion point is the number of
elements `< x`, i.e. the length of the longest `< x` prefix. -/
def bisect_left (l : List ℚ) (x : ℚ) : ℕ :=
  (l.takeWhile (fun b => decide (b < x))).length

/-- Whether a list is nonempty and its head is `< t_end` (the test
`beat_idx < len(beat_times) and beat_times[beat_idx] < t_end` applied to
the suffix of the beat list starting at `beat_idx`). -/
def headLt (l : List ℚ) (t_end : ℚ) : Bool :=
  match l with
  | [] => false
  | b :: _ => decide (b < t_end)

/-- The beat flag of the frame starting at `t`:
`beat_idx = bisect_left(beat_times, t)` and
`has_beat = beat_idx < len(beat_times) and beat_times[beat_idx] < t_end`.
`l.drop (bisect_left l t)` is the suffix starting at `beat_idx`; the flag
holds iff that suffix is nonempty and its head is `< t_end`. -/
def hasBeat (beat_times : List ℚ) (t t_end : ℚ) : Bool :=
  headLt (beat_times.drop (bisect_left beat_times t)) t_end

/-- The chord-lookup loop: scan `chord_index` in order; return the label of
the first segment with `t_start ≤ t < t_end`, and stop with `"N"` at the
first segment with `t_start > t` or at the end of the list. -/
def chordLookup (chord_index : List ChordSeg) (t : ℚ) : String :=
  match chord_index with
  | [] => "N"
  | cs :: rest =>
    if cs.t_start ≤ t ∧ t < cs.t_end then cs.label
    else if cs.t_start > t then "N"
    else chordLookup rest t

/-- The word-collection loop: `continue` past words with `end < t`, `break`
at the first word with `start ≥ t_end`, collect the rest. -/
def wordScan (all_words : List Word) (t t_end : ℚ) : List String :=
  match all_words with
  | [] => []
  | w :: rest =>
    if w.end' < t then wordScan rest t t_end
    else if w.start ≥ t_end then []
    else w.word :: wordScan rest t t_end

/-- `feature_map = {round(f["t"], 4): f for f in audio_features}` followed by
`feature_map.get(t, {"rms": 0.0, "spectral_centroid": 0.0})` and the
`.get`s on the result: in a dict comprehension a later feature overwrites
an earlier one with the same rounded time, hence the reversed search. -/
def featureMapGet (audio_features : List AudioFeature) (t : ℚ) : AudioData :=
  match audio_features.reverse.find? (fun f => roundTo4 f.t == t) with
  | some f => ⟨f.rms, f.spectral_centroid⟩
  | none => ⟨0, 0⟩

/-- The body of the frame loop for the frame starting at (already rounded)
grid time `t`, over the pre-sorted inputs. -/
def buildFrame (session_id : String) (audio_features : List AudioFeature)
    (beat_times : List ℚ) (chord_index : List ChordSeg)
    (all_words : List Word) (key_str : String) (bpm : ℚ) (t : ℚ) : Frame :=
  let t_end := t + FRAME_RESOLUTION
  let af := featureMapGet audio_features t
  let has_beat := hasBeat beat_times t t_end
  let chord_label := chordLookup chord_index t
  let frame_words := wordScan all_words t t_end
  let frame_text := pyStrip (String.intercalate " " frame_words)
  { session_id := session_id
    t := t
    audio := af
    music := { chord := chord_label, key := key_str, bpm := bpm,
               beat := has_beat }
    speech := { textPartial := frame_text, words := frame_words } }

/-- `aligner.fusion.build_perception_frames`.  Sorts beat times, sorts
chord segments by `t_start` (`sorted` with a key is a stable sort, as is
`List.insertionSort`), flattens and sorts transcript words by `start`
(`list.sort` with a key, also stable), computes the global key string
`f"{key_label}:{key_scale[:3]}"` and bpm, and maps the frame body over
`range(int(duration_sec / FRAME_RESOLUTION) + 1)` with
`t = round(i * FRAME_RESOLUTION, 4)`. -/
def build_perception_frames (session_id : String) (duration_sec : ℚ)
    (audio_features : List AudioFeature) (tempo_result : TempoResult)
    (key_result : KeyResult) (chord_segments : List ChordSeg)
    (transcript_segments : List TranscriptSeg) : List Frame :=
  let beat_times := List.insertionSort (fun a b : ℚ => a ≤ b)
    tempo_result.beat_times
  let chord_index := List.insertionSort
    (fun a b : ChordSeg => a.t_start ≤ b.t_start) chord_segments
  let all_words := List.insertionSort (fun a b : Word => a.start ≤ b.start)
    ((transcript_segments.map TranscriptSeg.words).flatten)
  let key_str := key_result.key_label ++ ":" ++ key_result.key_scale.take 3
  let bpm := tempo_result.tempo_bpm
  let num_frames := (pyInt (duration_sec / FRAME_RESOLUTION) + 1).toNat
  (List.range num_frames).map (fun (i : ℕ) =>
    buildFrame session_id audio_features beat_times chord_index all_words
      key_str bpm (roundTo4 ((i : ℚ) * FRAME_RESOLUTION)))

/-! ## Model of `StreamWorker` (`libs/sap_common/sap_common/valkey_streams.py`) -/

/-- Python truthiness of an `hget`/`get` result: `None` and the empty
string are falsy, every other string is truthy. -/
def truthy : Option String → Bool
  | none => false
  | some s => s != ""

/-- Read a field of a flat message dict, with a default
(`data.get(key, default)`). -/
def getField (data : List (String × String)) (key dflt : String) : String :=
  match data.find? (fun p => p.1 == key) with
  | some p => p.2
  | none => dflt

/-- A dead-letter entry: `{**data, "original_id": msg_id, "attempts":
str(attempt)}` — the original message fields plus the two extra keys. -/
structure DlqEntry where
  fields : List (String × String)
  original_id : String
  attempts : String
deriving DecidableEq, Repr

/-- A message published to `sap:session:status` by
`update_session_status(session_id, status, error)`. -/
structure StatusMsg where
  session_id : String
  status : String
  error : String
deriving DecidableEq, Repr

/-- The per-worker state touched by `StreamWorker._handle_message`:
the `sap:retries:<stream>:<msg_id>` counters, the set of acknowledged
message ids, the `<stream>:dlq` entries, the published status updates,
and how often `process` has been called. -/
structure WorkerState where
  retries : List (String × ℕ)
  acked : List String
  dlq : List DlqEntry
  statusUpdates : List StatusMsg
  processCalls : ℕ
deriving DecidableEq, Repr

/-- `_get_attempt_count`: the stored counter, `0` when absent. -/
def getAttemptCount (s : WorkerState) (msg_id : String) : ℕ :=
  match s.retries.find? (fun p => p.1 == msg_id) with
  | some p => p.2
  | none => 0

/-- `_set_attempt_count`: store the counter for the message. -/
def setAttemptCount (s : WorkerState) (msg_id : String) (count : ℕ) :
    WorkerState :=
  { s with retries :=
      (msg_id, count) :: s.retries.filter (fun p => p.1 != msg_id) }

/-- `StreamWorker._handle_message` for one delivery of `msg_id`/`data`.
`ok` is whether this `process` invocation succeeds; `maxRetries` is
`MAX_RETRIES` (default 3).  On success: ack and delete the retry counter.
On failure: increment the attempt count; at `attempt >= MAX_RETRIES`
append `{**data, original_id, attempts}` to the DLQ, ack, and publish a
`failed` status for `data.get("session_id", "unknown")`; otherwise store
the new attempt count. -/
def handleMessage (maxRetries : ℕ) (ok : Bool) (msg_id : String)
    (data : List (String × String)) (s : WorkerState) : WorkerState :=
  let attempt := getAttemptCount s msg_id
  if ok then
    { s with
      processCalls := s.processCalls + 1
      acked := msg_id :: s.acked
      retries := s.retries.filter (fun p => p.1 != msg_id) }
  else
    let attempt := attempt + 1
    if attempt ≥ maxRetries then
      { s with
        processCalls := s.processCalls + 1
        dlq := s.dlq ++ [⟨data, msg_id, toString attempt⟩]
        acked := msg_id :: s.acked
        statusUpdates := s.statusUpdates ++
          [⟨getField data "session_id" "unknown", "failed",
            "Exceeded " ++ toString maxRetries ++ " retries"⟩] }
    else
      setAttemptCount { s with processCalls := s.processCalls + 1 }
        msg_id attempt

/-- The fresh WorkerState a worker starts from. -/
def initialWorkerState : WorkerState := ⟨[], [], [], [], 0⟩

/-- `StreamWorker.__init__`:
`consumer_name = f"{GROUP}-{uuid.uuid4().hex[:8]}"` — a fresh random
consumer identity for every process start. -/
def consumerName (group uuidHex8 : String) : String :=
  group ++ "-" ++ uuidHex8

/-- One entry of a consumer group's pending-entries list: a message
delivered to some consumer of the group but not yet acknowledged. -/
structure PendingEntry where
  msg_id : String
  consumer : String
  data : List (String × String)
deriving DecidableEq, Repr

/-- `XREADGROUP GROUP g c ... STREAMS s 0`:  reading from id `0` returns
the history of the *calling consumer's own* pending entries — never the
pending entries of other consumers of the group. -/
def xreadgroupZero (pel : List PendingEntry) (consumer : String) :
    List PendingEntry :=
  pel.filter (fun e => e.consumer == consumer)

/-- Phase 1 of `StreamWorker.run` (the recovery pass): read the
consumer's own pending entries from id `0` and handle each message whose
field dict is non-empty (`if data:` skips acknowledged-but-not-yet-trimmed
entries).  Returns the ids of the messages actually processed. -/
def recoveryPass (pel : List PendingEntry) (consumer : String) :
    List String :=
  ((xreadgroupZero pel consumer).filter
    (fun e => !(e.data.isEmpty))).map PendingEntry.msg_id

/-! ## Model of `AlignerWorker` (`services/aligner/aligner/worker.py`) -/

/-- The typed content of a `music` message payload as `_build_and_store_frames`
reads it back from the tracker: `features`, `tempo`, `key`, `chords`
(each read with a `.get` default). -/
structure MusicPayload where
  features : List AudioFeature
  tempo : TempoResult
  key : KeyResult
  chords : List ChordSeg
deriving DecidableEq, Repr

/-- A fusion-input message payload.  JSON round-trips through the Valkey
hash (`json.dumps` on write, `json.loads` on read) are modelled as the
identity on these typed values; streaming-ASR partials are never parsed
further and stay opaque. -/
inductive AlignPayload where
  | music (p : MusicPayload)
  | asrStreaming (raw : String)
  | transcript (segs : List TranscriptSeg)
deriving DecidableEq, Repr

/-- The per-session coordination accumulator
(`sap:align:tracker:<session_id>` Valkey hash). -/
structure Tracker where
  music : Option AlignPayload
  music_received : Option String
  asr_partials : List AlignPayload
  asr_final : Option AlignPayload
  asr_final_received : Option String
deriving DecidableEq, Repr

/-- The empty accumulator (no hash fields set). -/
def emptyTracker : Tracker := ⟨none, none, [], none, none⟩

/-- The accumulator writes of `AlignerWorker.process` for one message,
dispatching on `data.get("source", "")`.  Unknown sources write nothing. -/
def processWrite (tr : Tracker) (source : String) (payload : AlignPayload) :
    Tracker :=
  if source == "music" then
    { tr with music := some payload, music_received := some "1" }
  else if source == "asr" then
    { tr with asr_partials := tr.asr_partials ++ [payload] }
  else if source == "asr_final" then
    { tr with asr_final := some payload, asr_final_received := some "1" }
  else tr

/-- `json.loads(await client.hget(tracker_key, "music") or "{}")` followed
by the `.get`s in the `build_perception_frames` call: a missing or
non-music value yields all defaults. -/
def musicOf : Option AlignPayload → MusicPayload
  | some (.music p) => p
  | _ => ⟨[], ⟨[], 0⟩, ⟨"", ""⟩, []⟩

/-- `json.loads(await client.hget(tracker_key, "asr_final") or "[]")` and
`asr_data if isinstance(asr_data, list) else []`. -/
def transcriptOf : Option AlignPayload → List TranscriptSeg
  | some (.transcript segs) => segs
  | _ => []

/-- Duration resolution in `_build_and_store_frames`:
`session.duration_sec if session else 0.0`, then, if that is falsy and the
feature list is truthy (non-empty), `features[-1]["t"] + 0.250`.
`dbDuration = none` covers both a missing session row and a NULL column. -/
def resolveDuration (dbDuration : Option ℚ) (features : List AudioFeature) :
    ℚ :=
  let d := dbDuration.getD 0
  if d = 0 ∧ features ≠ [] then
    match features.getLast? with
    | some f => f.t + FRAME_RESOLUTION
    | none => d
  else d

/-- The externally visible effects of one `_build_and_store_frames` call:
the perception-frame delete, the frame inserts, the session-row update
(status and duration), the `sap:results:stream` publish (session id,
`frame_count`, `is_final`), the `sap:session:status` publish, the tracker
delete, and the no-duration warning. -/
structure StoreEffects where
  framesDeleted : Bool
  framesInserted : List Frame
  sessionUpdate : Option (String × ℚ)
  resultsPublished : List (String × ℕ × String)
  statusPublished : List StatusMsg
  trackerDeleted : Bool
  warned : Bool
deriving DecidableEq, Repr

/-- `AlignerWorker._build_and_store_frames`: resolve the duration; if it
is falsy, log a warning and return with no other effect; otherwise build
the perception frames, clear and re-insert the session's frames, mark the
session `completed` with the resolved duration, publish the batch to
`sap:results:stream` and a `completed` status, and delete the tracker. -/
def buildAndStore (session_id : String) (dbDuration : Option ℚ)
    (music : MusicPayload) (transcript : List TranscriptSeg) : StoreEffects :=
  let duration := resolveDuration dbDuration music.features
  if duration = 0 then
    { framesDeleted := false, framesInserted := [], sessionUpdate := none
      resultsPublished := [], statusPublished := [], trackerDeleted := false
      warned := true }
  else
    let frames := build_perception_frames session_id duration music.features
      music.tempo music.key music.chords transcript
    { framesDeleted := true
      framesInserted := frames
      sessionUpdate := some ("completed", duration)
      resultsPublished := [(session_id, frames.length, "true")]
      statusPublished := [⟨session_id, "completed", ""⟩]
      trackerDeleted := true
      warned := false }

/-- The result of one `AlignerWorker.process` call: the surviving
accumulator (`none` once deleted), whether `_build_and_store_frames` was
invoked, and its effects if so. -/
structure ProcessResult where
  tracker : Option Tracker
  buildInvoked : Bool
  effects : Option StoreEffects
deriving DecidableEq, Repr

/-- `AlignerWorker.process`: perform the accumulator writes for the
message, then re-read `music_received` and `asr_final_received` and, if
both are truthy, run `_build_and_store_frames`. -/
def alignerProcess (dbDuration : Option ℚ) (tr : Tracker)
    (session_id source : String) (payload : AlignPayload) : ProcessResult :=
  let tr' := processWrite tr source payload
  if truthy tr'.music_received && truthy tr'.asr_final_received then
    let eff := buildAndStore session_id dbDuration (musicOf tr'.music)
      (transcriptOf tr'.asr_final)
    { tracker := if eff.trackerDeleted then none else some tr'
      buildInvoked := true
      effects := some eff }
  else
    { tracker := some tr', buildInvoked := false, effects := none }

/-! ## Model of `WebSocketManager` (`services/audio_gateway/audio_gateway/ws_manager.py`) -/

/-- WebSocket connections, identified by a number; `sendOk c` models
whether `ws.send_json` on connection `c` succeeds or raises. -/
abbrev Conn := ℕ

/-- The `_connections` registry: session id → registered connections. -/
abbrev Registry := List (String × List Conn)

/-- `self._connections.get(session_id, set())`. -/
def regGet (reg : Registry) (session_id : String) : List Conn :=
  ((reg.find? (fun e => e.1 == session_id)).map Prod.snd).getD []

/-- Remove every connection in `dead` from the session's set
(the `discard` loop after the send loop). -/
def regPrune (reg : Registry) (session_id : String) (dead : List Conn) :
    Registry :=
  reg.map (fun e =>
    if e.1 == session_id then (e.1, e.2.filter (fun c => !(dead.contains c)))
    else e)

/-- `WebSocketManager.broadcast`: copy the session's connection set,
attempt `send_json` to each; a raising send puts the connection on the
`dead` list instead of propagating; afterwards discard every dead
connection.  Returns the new registry, the connections delivery was
attempted to, and the pruned ones. -/
def broadcast (sendOk : Conn → Bool) (reg : Registry) (session_id : String) :
    Registry × List Conn × List Conn :=
  let websockets := regGet reg session_id
  let dead := websockets.filter (fun c => !(sendOk c))
  (regPrune reg session_id dead, websockets, dead)

/-- The dispatch tail of `_relay_loop` for one message: broadcast the
built payload to the session's connections, then `XACK` the message.
The returned `Bool` is whether the message was acknowledged — `true` on
every path. -/
def relayDispatch (sendOk : Conn → Bool) (reg : Registry)
    (session_id : String) : Registry × Bool :=
  ((broadcast sendOk reg session_id).1, true)

/-! ## Helper lemmas about the fusion grid -/

lemma FRAME_RESOLUTION_eq : FRAME_RESOLUTION = 1 / 4 := by
  norm_num [FRAME_RESOLUTION]

lemma FRAME_RESOLUTION_pos : 0 < FRAME_RESOLUTION := by
  rw [FRAME_RESOLUTION_eq]; norm_num

/-- Grid times are exact multiples of `10⁻⁴`, so `round(·, 4)` leaves
them unchanged. -/
lemma roundTo4_grid (i : ℕ) :
    roundTo4 ((i : ℚ) * FRAME_RESOLUTION) = (i : ℚ) * FRAME_RESOLUTION := by
  rw [roundTo4, FRAME_RESOLUTION_eq]
  have h : (i : ℚ) * (1 / 4) * 10000 = ((i * 2500 : ℕ) : ℚ) := by
    push_cast; ring
  rw [h, round_natCast]
  push_cast; ring

lemma pyInt_of_nonneg {q : ℚ} (h : 0 ≤ q) : pyInt q = ⌊q⌋ := if_pos h

lemma build_perception_frames_length (sid : String) (D : ℚ)
    (af : List AudioFeature) (tr : TempoResult) (kr : KeyResult)
    (cs : List ChordSeg) (ts : List TranscriptSeg) :
    (build_perception_frames sid D af tr kr cs ts).length =
      (pyInt (D / FRAME_RESOLUTION) + 1).toNat := by
  simp [build_perception_frames]

lemma build_perception_frames_getElem (sid : String) (D : ℚ)
    (af : List AudioFeature) (tr : TempoResult) (kr : KeyResult)
    (cs : List ChordSeg) (ts : List TranscriptSeg) (i : ℕ)
    (h : i < (build_perception_frames sid D af tr kr cs ts).length) :
    (build_perception_frames sid D af tr kr cs ts)[i] =
      buildFrame sid af
        (List.insertionSort (fun a b : ℚ => a ≤ b) tr.beat_times)
        (List.insertionSort (fun a b : ChordSeg => a.t_start ≤ b.t_start) cs)
        (List.insertionSort (fun a b : Word => a.start ≤ b.start)
          ((ts.map TranscriptSeg.words).flatten))
        (kr.key_label ++ ":" ++ kr.key_scale.take 3) tr.tempo_bpm
        ((i : ℚ) * FRAME_RESOLUTION) := by
  simp only [build_perception_frames] at h ⊢
  simp [List.getElem_map, List.getElem_range, roundTo4_grid]

lemma buildFrame_t (sid : String) (af : List AudioFeature) (bt : List ℚ)
    (ci : List ChordSeg) (aw : List Word) (ks : String) (bpm t : ℚ) :
    (buildFrame sid af bt ci aw ks bpm t).t = t := rfl

lemma buildFrame_chord (sid : String) (af : List AudioFeature) (bt : List ℚ)
    (ci : List ChordSeg) (aw : List Word) (ks : String) (bpm t : ℚ) :
    (buildFrame sid af bt ci aw ks bpm t).music.chord = chordLookup ci t :=
  rfl

lemma buildFrame_beat (sid : String) (af : List AudioFeature) (bt : List ℚ)
    (ci : List ChordSeg) (aw : List Word) (ks : String) (bpm t : ℚ) :
    (buildFrame sid af bt ci aw ks bpm t).music.beat =
      hasBeat bt t (t + FRAME_RESOLUTION) := rfl

lemma buildFrame_text (sid : String) (af : List AudioFeature) (bt : List ℚ)
    (ci : List ChordSeg) (aw : List Word) (ks : String) (bpm t : ℚ) :
    (buildFrame sid af bt ci aw ks bpm t).speech.textPartial =
      pyStrip (String.intercalate " "
        (wordScan aw t (t + FRAME_RESOLUTION))) := rfl

/-! ## Helper lemmas about the per-frame loops -/

/-- On a list sorted by `t_start` with non-overlapping segments, the chord
scan returns the label of the segment containing `t`. -/
lemma chordLookup_eq_label (cs : List ChordSeg) (t : ℚ)
    (hsort : cs.Sorted (fun a b => a.t_start ≤ b.t_start))
    (hsep : cs.Pairwise (fun a b => a.t_end ≤ b.t_start))
    (c : ChordSeg) (hc : c ∈ cs) (h1 : c.t_start ≤ t) (h2 : t < c.t_end) :
    chordLookup cs t = c.label := by
  induction cs with
  | nil => cases hc
  | cons a rest ih =>
    rw [chordLookup]
    rcases List.mem_cons.mp hc with rfl | hmem
    · rw [if_pos ⟨h1, h2⟩]
    · have hsta : a.t_start ≤ c.t_start :=
        List.rel_of_sorted_cons hsort c hmem
      have hsep_ac : a.t_end ≤ c.t_start := List.rel_of_pairwise_cons hsep hmem
      have hcond : ¬(a.t_start ≤ t ∧ t < a.t_end) := by
        rintro ⟨-, hlt⟩
        exact absurd (lt_of_lt_of_le hlt (le_trans hsep_ac h1)) (lt_irrefl t)
      rw [if_neg hcond, if_neg (not_lt.mpr (le_trans hsta h1))]
      exact ih hsort.of_cons hsep.of_cons hmem

/-- When no segment contains `t`, the chord scan returns `"N"`. -/
lemma chordLookup_eq_N (cs : List ChordSeg) (t : ℚ)
    (h : ∀ c ∈ cs, ¬(c.t_start ≤ t ∧ t < c.t_end)) :
    chordLookup cs t = "N" := by
  induction cs with
  | nil => rfl
  | cons a rest ih =>
    rw [chordLookup, if_neg (h a (List.mem_cons_self a rest))]
    by_cases hgt : a.t_start > t
    · rw [if_pos hgt]
    · rw [if_neg hgt]
      exact ih (fun c hc => h c (List.mem_cons_of_mem _ hc))

/-- Dropping the length of the longest matching prefix is `dropWhile`. -/
lemma drop_length_takeWhile {α : Type} (p : α → Bool) (l : List α) :
    l.drop (l.takeWhile p).length = l.dropWhile p := by
  induction l with
  | nil => rfl
  | cons a rest ih =>
    rw [List.takeWhile_cons, List.dropWhile_cons]
    by_cases h : p a
    · rw [if_pos h, if_pos h, List.length_cons, List.drop_succ_cons, ih]
    · rw [if_neg h, if_neg h, List.length_nil, List.drop_zero]

/-- `hasBeat` rephrased: dropping the longest `< t` prefix is `dropWhile`. -/
lemma hasBeat_eq_dropWhile (l : List ℚ) (t t_end : ℚ) :
    hasBeat l t t_end =
      headLt (l.dropWhile (fun b => decide (b < t))) t_end := by
  rw [hasBeat, bisect_left, drop_length_takeWhile]

/-- On a sorted beat list, the beat flag holds iff the least beat time
`≥ t` exists and is `< t_end`. -/
lemma hasBeat_iff (l : List ℚ) (t t_end : ℚ) (hsort : l.Sorted (· ≤ ·)) :
    hasBeat l t t_end = true ↔
      ∃ b ∈ l, t ≤ b ∧ b < t_end ∧ ∀ b' ∈ l, t ≤ b' → b ≤ b' := by
  rw [hasBeat_eq_dropWhile]
  induction l with
  | nil => simp [headLt]
  | cons a rest ih =>
    have ha : ∀ x ∈ rest, a ≤ x := List.rel_of_sorted_cons hsort
    rw [List.dropWhile_cons]
    by_cases h : a < t
    · rw [if_pos (by simpa using h), ih hsort.of_cons]
      constructor
      · rintro ⟨b, hb, h1, h2, h3⟩
        refine ⟨b, List.mem_cons_of_mem _ hb, h1, h2, fun b' hb' ht' => ?_⟩
        rcases List.mem_cons.mp hb' with rfl | hb''
        · exact absurd ht' (not_le.mpr h)
        · exact h3 b' hb'' ht'
      · rintro ⟨b, hb, h1, h2, h3⟩
        rcases List.mem_cons.mp hb with rfl | hb''
        · exact absurd h1 (not_le.mpr h)
        · exact ⟨b, hb'', h1, h2,
            fun b' hb' ht' => h3 b' (List.mem_cons_of_mem _ hb') ht'⟩
    · rw [if_neg (by simpa using h)]
      have hta : t ≤ a := not_lt.mp h
      simp only [headLt, decide_eq_true_eq]
      constructor
      · intro hlt
        refine ⟨a, List.mem_cons_self a rest, hta, hlt, fun b' hb' _ => ?_⟩
        rcases List.mem_cons.mp hb' with rfl | hb''
        · exact le_rfl
        · exact ha b' hb''
      · rintro ⟨b, hb, -, h2, -⟩
        have hab : a ≤ b := by
          rcases List.mem_cons.mp hb with rfl | hb''
          · exact le_refl b
          · exact ha b hb''
        exact lt_of_le_of_lt hab h2

/-- Sorting two permuted lists of rationals gives the same list. -/
lemma insertionSort_rat_eq_of_perm (l₁ l₂ : List ℚ) (hp : l₁.Perm l₂) :
    List.insertionSort (fun a b : ℚ => a ≤ b) l₁ =
      List.insertionSort (fun a b : ℚ => a ≤ b) l₂ :=
  List.eq_of_perm_of_sorted
    ((List.perm_insertionSort _ l₁).trans
      (hp.trans (List.perm_insertionSort _ l₂).symm))
    (List.sorted_insertionSort _ l₁) (List.sorted_insertionSort _ l₂)

/-- Sorting by a key is permutation-invariant when the keys are pairwise
distinct (two sorted rearrangements of the same elements coincide). -/
lemma insertionSort_key_eq_of_perm {α : Type} (key : α → ℚ)
    (l₁ l₂ : List α) (hp : l₁.Perm l₂)
    (hd : l₁.Pairwise (fun a b => key a ≠ key b)) :
    List.insertionSort (fun a b => key a ≤ key b) l₁ =
      List.insertionSort (fun a b => key a ≤ key b) l₂ := by
  haveI : IsTotal α (fun a b => key a ≤ key b) :=
    ⟨fun a b => le_total (key a) (key b)⟩
  haveI : IsTrans α (fun a b => key a ≤ key b) :=
    ⟨fun _ _ _ h₁ h₂ => le_trans h₁ h₂⟩
  haveI : IsAntisymm α (fun a b => key a < key b) :=
    ⟨fun _ _ h₁ h₂ => absurd h₂ (lt_asymm h₁)⟩
  have hsymm : ∀ {x y : α}, key x ≠ key y → key y ≠ key x :=
    fun h => Ne.symm h
  have hd₁ : (List.insertionSort (fun a b => key a ≤ key b) l₁).Pairwise
      (fun a b => key a ≠ key b) :=
    ((List.perm_insertionSort _ l₁).pairwise_iff hsymm).mpr hd
  have hd₂ : (List.insertionSort (fun a b => key a ≤ key b) l₂).Pairwise
      (fun a b => key a ≠ key b) :=
    ((List.perm_insertionSort _ l₂).pairwise_iff hsymm).mpr
      ((hp.pairwise_iff hsymm).mp hd)
  have hs₁ : (List.insertionSort (fun a b => key a ≤ key b) l₁).Pairwise
      (fun a b => key a < key b) :=
    ((List.sorted_insertionSort _ l₁).and hd₁).imp
      (fun h => lt_of_le_of_ne h.1 h.2)
  have hs₂ : (List.insertionSort (fun a b => key a ≤ key b) l₂).Pairwise
      (fun a b => key a < key b) :=
    ((List.sorted_insertionSort _ l₂).and hd₂).imp
      (fun h => lt_of_le_of_ne h.1 h.2)
  exact List.eq_of_perm_of_sorted
    ((List.perm_insertionSort _ l₁).trans
      (hp.trans (List.perm_insertionSort _ l₂).symm)) hs₁ hs₂

/-- On a list sorted by `start`, the word scan collects exactly the words
overlapping `[t, t_end)`. -/
lemma wordScan_eq_filter (l : List Word) (t t_end : ℚ)
    (hsort : l.Sorted (fun a b => a.start ≤ b.start)) :
    wordScan l t t_end =
      (l.filter (fun w => decide (t ≤ w.end') && decide (w.start < t_end))).map
        Word.word := by
  induction l with
  | nil => rfl
  | cons w rest ih =>
    have hw : ∀ x ∈ rest, w.start ≤ x.start := List.rel_of_sorted_cons hsort
    rw [wordScan]
    by_cases h1 : w.end' < t
    · rw [if_pos h1, List.filter_cons]
      have : (decide (t ≤ w.end') && decide (w.start < t_end)) = false := by
        simp [not_le.mpr h1]
      rw [this, if_neg (by simp)]
      exact ih hsort.of_cons
    · rw [if_neg h1]
      have hend : decide (t ≤ w.end') = true := by simp [not_lt.mp h1]
      by_cases h2 : w.start ≥ t_end
      · rw [if_pos h2]
        have hnil : (w :: rest).filter
            (fun w => decide (t ≤ w.end') && decide (w.start < t_end)) = [] := by
          rw [List.filter_eq_nil_iff]
          intro x hx
          rcases List.mem_cons.mp hx with rfl | hx'
          · simp [not_lt.mpr h2]
          · simp [not_lt.mpr (le_trans h2 (hw x hx'))]
        rw [hnil]
        rfl
      · rw [if_neg h2, List.filter_cons]
        have hst : decide (w.start < t_end) = true := by simp [not_le.mp h2]
        rw [hend, hst]
        simp only [Bool.and_self, if_pos]
        rw [List.map_cons, ih hsort.of_cons]

/-! ## Claim C1 (frame count and grid times) -/

/-- C1, counterexample: for duration `D = 0.3` the code produces
`int(0.3 / 0.25) + 1 = 2` frames, while the claimed `ceil(D / G) + 1`
is `3` — the frame count truncates, it does not round up. -/
theorem C1_counterexample :
    (build_perception_frames "s" (3 / 10) [] ⟨[], 0⟩ ⟨"", ""⟩ [] []).length
        = 2 ∧
      (⌈(3 / 10 : ℚ) / FRAME_RESOLUTION⌉ + 1 : ℤ) = 3 := by
  constructor
  · with_unfolding_all decide
  · rw [FRAME_RESOLUTION_eq]
    have h : ((3 : ℚ) / 10) / (1 / 4) = 6 / 5 := by norm_num
    have h2 : (⌈(6 / 5 : ℚ)⌉ : ℤ) = 2 := by
      rw [Int.ceil_eq_iff]
      norm_num
    rw [h, h2]
    norm_num

/-- C1, amended: for every session with determined duration `D ≥ 0` and
grid step `G = 0.250 s`, `build_perception_frames` returns exactly
`⌊D / G⌋ + 1` frames (`int()` truncation, not `ceil`), with frame `i`
carrying time `t = i·G`. -/
theorem C1_amended (sid : String) (D : ℚ) (af : List AudioFeature)
    (tr : TempoResult) (kr : KeyResult) (cs : List ChordSeg)
    (ts : List TranscriptSeg) (hD : 0 ≤ D) :
    (build_perception_frames sid D af tr kr cs ts).length
        = (⌊D / FRAME_RESOLUTION⌋).toNat + 1 ∧
      ∀ (i : ℕ) (h : i < (build_perception_frames sid D af tr kr cs ts).length),
        (build_perception_frames sid D af tr kr cs ts)[i].t
          = (i : ℚ) * FRAME_RESOLUTION := by
  have hq : (0 : ℚ) ≤ D / FRAME_RESOLUTION :=
    div_nonneg hD FRAME_RESOLUTION_pos.le
  constructor
  · rw [build_perception_frames_length, pyInt_of_nonneg hq]
    have h0 : 0 ≤ ⌊D / FRAME_RESOLUTION⌋ := Int.floor_nonneg.mpr hq
    omega
  · intro i h
    rw [build_perception_frames_getElem _ _ _ _ _ _ _ i h, buildFrame_t]

/-- C1, witness: the amended statement at the concrete duration `1.0`. -/
theorem C1_amended_witness :
    (build_perception_frames "s" 1 [] ⟨[], 0⟩ ⟨"", ""⟩ [] []).length
      = (⌊(1 : ℚ) / FRAME_RESOLUTION⌋).toNat + 1 :=
  (C1_amended "s" 1 [] ⟨[], 0⟩ ⟨"", ""⟩ [] [] (by norm_num)).1

/-! ## Claim C5 (chord label lookup) -/

/-- C5: for a time-ordered, non-overlapping chord-segment list, every
frame's chord is the label of the segment whose `[t_start, t_end)`
contains the frame time, and `"N"` when none does; and on segments
`[(0,2,"C"), (2,5,"G")]` with grid step `0.25` the frames at `t = 1.0`,
`t = 2.0` and `t = 6.0` carry chords `"C"`, `"G"` and `"N"`. -/
theorem C5_chord_label :
    (∀ (sid : String) (D : ℚ) (af : List AudioFeature) (tr : TempoResult)
        (kr : KeyResult) (cs : List ChordSeg) (ts : List TranscriptSeg),
      cs.Sorted (fun a b => a.t_start ≤ b.t_start) →
      cs.Pairwise (fun a b => a.t_end ≤ b.t_start) →
      ∀ (i : ℕ)
        (h : i < (build_perception_frames sid D af tr kr cs ts).length),
        (∀ c ∈ cs, c.t_start ≤ (i : ℚ) * FRAME_RESOLUTION ∧
            (i : ℚ) * FRAME_RESOLUTION < c.t_end →
          (build_perception_frames sid D af tr kr cs ts)[i].music.chord
            = c.label) ∧
        ((∀ c ∈ cs, ¬(c.t_start ≤ (i : ℚ) * FRAME_RESOLUTION ∧
            (i : ℚ) * FRAME_RESOLUTION < c.t_end)) →
          (build_perception_frames sid D af tr kr cs ts)[i].music.chord
            = "N")) ∧
    ((build_perception_frames "s" 6 [] ⟨[], 0⟩ ⟨"", ""⟩
        [⟨0, 2, "C"⟩, ⟨2, 5, "G"⟩] []).map
      (fun f => f.music.chord)).getD 4 "?" = "C" ∧
    ((build_perception_frames "s" 6 [] ⟨[], 0⟩ ⟨"", ""⟩
        [⟨0, 2, "C"⟩, ⟨2, 5, "G"⟩] []).map
      (fun f => f.music.chord)).getD 8 "?" = "G" ∧
    ((build_perception_frames "s" 6 [] ⟨[], 0⟩ ⟨"", ""⟩
        [⟨0, 2, "C"⟩, ⟨2, 5, "G"⟩] []).map
      (fun f => f.music.chord)).getD 24 "?" = "N" := by
  refine ⟨?_, ?_, ?_, ?_⟩
  · intro sid D af tr kr cs ts hsort hsep i h
    rw [build_perception_frames_getElem _ _ _ _ _ _ _ i h, buildFrame_chord,
      List.Sorted.insertionSort_eq hsort]
    exact ⟨fun c hc hct => chordLookup_eq_label cs _ hsort hsep c hc hct.1 hct.2,
      fun hnone => chordLookup_eq_N cs _ hnone⟩
  · with_unfolding_all decide
  · with_unfolding_all decide
  · with_unfolding_all decide

/-- C5, witness: the general part applied at segments
`[(0,2,"C"), (2,5,"G")]` and frame index `4` (`t = 1.0`), containing
segment `(0,2,"C")`. -/
theorem C5_chord_label_witness :
    ((build_perception_frames "s" 6 [] ⟨[], 0⟩ ⟨"", ""⟩
        [⟨0, 2, "C"⟩, ⟨2, 5, "G"⟩] []).get
      ⟨4, by with_unfolding_all decide⟩).music.chord = "C" :=
  ((C5_chord_label.1 "s" 6 [] ⟨[], 0⟩ ⟨"", ""⟩ [⟨0, 2, "C"⟩, ⟨2, 5, "G"⟩] []
      (by with_unfolding_all decide) (by with_unfolding_all decide) 4
      (by with_unfolding_all decide)).1
    ⟨0, 2, "C"⟩ (List.mem_cons_self _ _)
    (by rw [FRAME_RESOLUTION_eq]; norm_num))

/-! ## Claim C6 (beat flag) -/

/-- C6: for a sorted beat-time list, a frame's beat flag is true iff the
smallest beat time `≥ t` exists and is `< t + G`; and on beat times
`[0.1, 0.6, 1.1]` with `G = 0.25` the frames at `t = 0.0`, `t = 0.25`
and `t = 0.5` have flags `true`, `false`, `true`. -/
theorem C6_beat_flag :
    (∀ (sid : String) (D : ℚ) (af : List AudioFeature) (tr : TempoResult)
        (kr : KeyResult) (cs : List ChordSeg) (ts : List TranscriptSeg),
      tr.beat_times.Sorted (· ≤ ·) →
      ∀ (i : ℕ)
        (h : i < (build_perception_frames sid D af tr kr cs ts).length),
        ((build_perception_frames sid D af tr kr cs ts)[i].music.beat = true
          ↔ ∃ b ∈ tr.beat_times,
              (i : ℚ) * FRAME_RESOLUTION ≤ b ∧
              b < (i : ℚ) * FRAME_RESOLUTION + FRAME_RESOLUTION ∧
              ∀ b' ∈ tr.beat_times,
                (i : ℚ) * FRAME_RESOLUTION ≤ b' → b ≤ b')) ∧
    ((build_perception_frames "s" (1 / 2) [] ⟨[0.1, 0.6, 1.1], 0⟩ ⟨"", ""⟩
        [] []).map (fun f => f.music.beat)) = [true, false, true] := by
  constructor
  · intro sid D af tr kr cs ts hsort i h
    rw [build_perception_frames_getElem _ _ _ _ _ _ _ i h, buildFrame_beat,
      List.Sorted.insertionSort_eq hsort]
    exact hasBeat_iff tr.beat_times _ _ hsort
  · with_unfolding_all decide

/-- C6, witness: the general part applied at beat times `[0.1, 0.6, 1.1]`
and frame index `0` (`t = 0.0`): the flag is true because `0.1` is the
least beat time `≥ 0` and `0.1 < 0.25`. -/
theorem C6_beat_flag_witness :
    ((build_perception_frames "s" (1 / 2) [] ⟨[0.1, 0.6, 1.1], 0⟩ ⟨"", ""⟩
        [] []).get ⟨0, by with_unfolding_all decide⟩).music.beat = true :=
  (C6_beat_flag.1 "s" (1 / 2) [] ⟨[0.1, 0.6, 1.1], 0⟩ ⟨"", ""⟩ [] []
      (by with_unfolding_all decide) 0 (by with_unfolding_all decide)).mpr
    ⟨0.1, List.mem_cons_self _ _,
      by norm_num,
      by rw [FRAME_RESOLUTION_eq]; norm_num,
      by
        intro b' hb' _
        simp only [List.mem_cons, List.not_mem_nil, or_false] at hb'
        rcases hb' with rfl | rfl | rfl <;> norm_num⟩

/-! ## Claim C7 (speech text of a frame) -/

/-- C7, counterexample: with the time-ordered words
`[(0, 1, ""), (0.1, 1, "hi")]` the frame at `t = 0` overlaps both words;
the claimed space-join is `" hi"`, but the code applies `.strip()` and
stores `"hi"`. -/
theorem C7_counterexample :
    ((([⟨[⟨0, 1, ""⟩, ⟨1 / 10, 1, "hi"⟩]⟩] : List TranscriptSeg).map
        TranscriptSeg.words).flatten).Sorted
      (fun a b => a.start ≤ b.start) ∧
    ((build_perception_frames "s" 0 [] ⟨[], 0⟩ ⟨"", ""⟩ []
        [⟨[⟨0, 1, ""⟩, ⟨1 / 10, 1, "hi"⟩]⟩]).map
      (fun f => f.speech.textPartial)) = ["hi"] ∧
    String.intercalate " "
        ((([⟨0, 1, ""⟩, ⟨1 / 10, 1, "hi"⟩] : List Word).filter
          (fun w => decide ((0 : ℚ) * FRAME_RESOLUTION ≤ w.end') &&
            decide (w.start < (0 : ℚ) * FRAME_RESOLUTION
              + FRAME_RESOLUTION))).map Word.word) = " hi" ∧
    ("hi" : String) ≠ " hi" := by
  refine ⟨?_, ?_, ?_, ?_⟩
  · with_unfolding_all decide
  · with_unfolding_all decide
  · with_unfolding_all decide
  · with_unfolding_all decide

/-- C7, amended: for a time-ordered word list, the frame's speech text is
the space-joined concatenation, in list order, of exactly the words with
`w.end ≥ t ∧ w.start < t + G` — *with leading and trailing whitespace
stripped* (the code applies `.strip()` to the joined string). -/
theorem C7_amended :
    ∀ (sid : String) (D : ℚ) (af : List AudioFeature) (tr : TempoResult)
      (kr : KeyResult) (cs : List ChordSeg) (ts : List TranscriptSeg),
      ((ts.map TranscriptSeg.words).flatten).Sorted
        (fun a b => a.start ≤ b.start) →
      ∀ (i : ℕ)
        (h : i < (build_perception_frames sid D af tr kr cs ts).length),
        (build_perception_frames sid D af tr kr cs ts)[i].speech.textPartial
          = pyStrip (String.intercalate " "
              ((((ts.map TranscriptSeg.words).flatten).filter
                (fun w => decide ((i : ℚ) * FRAME_RESOLUTION ≤ w.end') &&
                  decide (w.start < (i : ℚ) * FRAME_RESOLUTION
                    + FRAME_RESOLUTION))).map Word.word)) := by
  intro sid D af tr kr cs ts hsort i h
  rw [build_perception_frames_getElem _ _ _ _ _ _ _ i h, buildFrame_text,
    List.Sorted.insertionSort_eq hsort,
    wordScan_eq_filter _ _ _ hsort]

/-- C7, witness: the amended statement at the counterexample's input and
frame index `0`. -/
theorem C7_amended_witness :
    ((build_perception_frames "s" 0 [] ⟨[], 0⟩ ⟨"", ""⟩ []
        [⟨[⟨0, 1, ""⟩, ⟨1 / 10, 1, "hi"⟩]⟩]).get
      ⟨0, by with_unfolding_all decide⟩).speech.textPartial
      = pyStrip (String.intercalate " "
          ((((([⟨[⟨0, 1, ""⟩, ⟨1 / 10, 1, "hi"⟩]⟩] : List TranscriptSeg).map
              TranscriptSeg.words).flatten).filter
            (fun w => decide ((0 : ℚ) * FRAME_RESOLUTION ≤ w.end') &&
              decide (w.start < (0 : ℚ) * FRAME_RESOLUTION
                + FRAME_RESOLUTION))).map Word.word)) :=
  C7_amended "s" 0 [] ⟨[], 0⟩ ⟨"", ""⟩ []
    [⟨[⟨0, 1, ""⟩, ⟨1 / 10, 1, "hi"⟩]⟩] (by with_unfolding_all decide) 0
    (by with_unfolding_all decide)

/-! ## Claim C10 (permutation invariance of the inputs) -/

/-- C10, counterexample: two overlapping chord segments with equal
`t_start`.  Python's `sorted(…, key=…)` is stable, so the two
permutations survive sorting in their given order, and the chord lookup
picks whichever duplicate comes first: the outputs differ. -/
theorem C10_counterexample :
    List.Perm
        ([⟨0, 1, "C"⟩, ⟨0, 1, "G"⟩] : List ChordSeg)
        ([⟨0, 1, "G"⟩, ⟨0, 1, "C"⟩] : List ChordSeg) ∧
      build_perception_frames "s" 0 [] ⟨[], 0⟩ ⟨"", ""⟩
          [⟨0, 1, "C"⟩, ⟨0, 1, "G"⟩] [] ≠
        build_perception_frames "s" 0 [] ⟨[], 0⟩ ⟨"", ""⟩
          [⟨0, 1, "G"⟩, ⟨0, 1, "C"⟩] [] := by
  constructor
  · exact List.Perm.swap _ _ _
  · with_unfolding_all decide

/-- C10, amended: the output of `build_perception_frames` is invariant
under permuting the beat-time list, permuting chord segments with
pairwise-distinct `t_start`, and permuting the words across transcript
segments with pairwise-distinct `start` times (for equal `t_start`
values the stable sort preserves the input order, so distinctness is
needed for the chord segments as well). -/
theorem C10_amended (sid : String) (D : ℚ) (af : List AudioFeature)
    (kr : KeyResult) (tr₁ tr₂ : TempoResult) (cs₁ cs₂ : List ChordSeg)
    (ts₁ ts₂ : List TranscriptSeg)
    (hbpm : tr₁.tempo_bpm = tr₂.tempo_bpm)
    (hbeat : tr₁.beat_times.Perm tr₂.beat_times)
    (hcs : cs₁.Perm cs₂)
    (hcsd : cs₁.Pairwise (fun a b => a.t_start ≠ b.t_start))
    (hws : ((ts₁.map TranscriptSeg.words).flatten).Perm
      ((ts₂.map TranscriptSeg.words).flatten))
    (hwsd : ((ts₁.map TranscriptSeg.words).flatten).Pairwise
      (fun a b => a.start ≠ b.start)) :
    build_perception_frames sid D af tr₁ kr cs₁ ts₁ =
      build_perception_frames sid D af tr₂ kr cs₂ ts₂ := by
  have h1 := insertionSort_rat_eq_of_perm _ _ hbeat
  have h2 := insertionSort_key_eq_of_perm ChordSeg.t_start cs₁ cs₂ hcs hcsd
  have h3 := insertionSort_key_eq_of_perm Word.start _ _ hws hwsd
  simp only [build_perception_frames, h1, h2, h3, hbpm]

/-- C10, witness: the amended statement at concrete permuted inputs. -/
theorem C10_amended_witness :
    build_perception_frames "s" 1 [] ⟨[1 / 2, 0], 120⟩ ⟨"C", "major"⟩
        [⟨0, 1, "C"⟩, ⟨2, 3, "G"⟩] [⟨[⟨0, 1, "a"⟩, ⟨2, 3, "b"⟩]⟩] =
      build_perception_frames "s" 1 [] ⟨[0, 1 / 2], 120⟩ ⟨"C", "major"⟩
        [⟨2, 3, "G"⟩, ⟨0, 1, "C"⟩] [⟨[⟨2, 3, "b"⟩]⟩, ⟨[⟨0, 1, "a"⟩]⟩] :=
  C10_amended "s" 1 [] ⟨"C", "major"⟩ ⟨[1 / 2, 0], 120⟩ ⟨[0, 1 / 2], 120⟩
    [⟨0, 1, "C"⟩, ⟨2, 3, "G"⟩] [⟨2, 3, "G"⟩, ⟨0, 1, "C"⟩]
    [⟨[⟨0, 1, "a"⟩, ⟨2, 3, "b"⟩]⟩] [⟨[⟨2, 3, "b"⟩]⟩, ⟨[⟨0, 1, "a"⟩]⟩]
    rfl (List.Perm.swap _ _ _) (List.Perm.swap _ _ _)
    (by with_unfolding_all decide) (by with_unfolding_all decide)
    (by with_unfolding_all decide)

/-! ## Claim C2 (crash recovery of pending messages) -/

/-- C2: the recovery pass cannot reach another (dead) consumer's pending
messages.  `run` reads from id `0` under a consumer name freshly drawn
from `uuid4` at process start, so its own pending-entries list is empty
and a message still pending for the crashed identity
`align-workers-deadbeef` is never claimed (`CLAIM_IDLE_MS` is defined but
no `XCLAIM`/`XAUTOCLAIM` is ever issued). -/
theorem C2_dead_consumer_not_recovered :
    recoveryPass [⟨"1-0", "align-workers-deadbeef", [("session_id", "s1")]⟩]
        (consumerName "align-workers" "a1b2c3d4") = [] ∧
      "1-0" ∈ ([⟨"1-0", "align-workers-deadbeef", [("session_id", "s1")]⟩] :
        List PendingEntry).map PendingEntry.msg_id := by
  constructor
  · with_unfolding_all decide
  · with_unfolding_all decide

/-! ## Claim C3 (retry bound and dead-letter behaviour) -/

/-- C3: for a handler that fails on every invocation, after the second
delivery no dead-letter entry exists and the message is unacknowledged;
the third delivery is the third and final handler attempt: it appends the
original fields plus `{original_id, attempts}` to the DLQ, acknowledges
the message, and emits one `failed` status for the message's
`session_id` (field default `"unknown"` when absent). -/
theorem C3_retry_dlq (msg_id : String) (data : List (String × String)) :
    (handleMessage 3 false msg_id data
        (handleMessage 3 false msg_id data initialWorkerState)).processCalls
        = 2 ∧
    (handleMessage 3 false msg_id data
        (handleMessage 3 false msg_id data initialWorkerState)).dlq = [] ∧
    (handleMessage 3 false msg_id data
        (handleMessage 3 false msg_id data initialWorkerState)).acked = [] ∧
    (handleMessage 3 false msg_id data (handleMessage 3 false msg_id data
        (handleMessage 3 false msg_id data
          initialWorkerState))).processCalls = 3 ∧
    (handleMessage 3 false msg_id data (handleMessage 3 false msg_id data
        (handleMessage 3 false msg_id data initialWorkerState))).dlq
        = [⟨data, msg_id, "3"⟩] ∧
    (handleMessage 3 false msg_id data (handleMessage 3 false msg_id data
        (handleMessage 3 false msg_id data initialWorkerState))).acked
        = [msg_id] ∧
    (handleMessage 3 false msg_id data (handleMessage 3 false msg_id data
        (handleMessage 3 false msg_id data initialWorkerState))).statusUpdates
        = [⟨getField data "session_id" "unknown", "failed",
            "Exceeded 3 retries"⟩] ∧
    (data.find? (fun p => p.1 == "session_id") = none →
      getField data "session_id" "unknown" = "unknown") := by
  have h1 : handleMessage 3 false msg_id data initialWorkerState =
      { retries := [(msg_id, 1)], acked := [], dlq := [], statusUpdates := []
        processCalls := 1 } := by
    simp [handleMessage, initialWorkerState, getAttemptCount, setAttemptCount]
  have h2 : handleMessage 3 false msg_id data
      { retries := [(msg_id, 1)], acked := [], dlq := [], statusUpdates := []
        processCalls := 1 } =
      { retries := [(msg_id, 2)], acked := [], dlq := [], statusUpdates := []
        processCalls := 2 } := by
    simp [handleMessage, getAttemptCount, setAttemptCount]
  have h3 : handleMessage 3 false msg_id data
      { retries := [(msg_id, 2)], acked := [], dlq := [], statusUpdates := []
        processCalls := 2 } =
      { retries := [(msg_id, 2)], acked := [msg_id],
        dlq := [⟨data, msg_id, "3"⟩],
        statusUpdates := [⟨getField data "session_id" "unknown", "failed",
          "Exceeded 3 retries"⟩], processCalls := 3 } := by
    simp only [handleMessage, getAttemptCount]
    norm_num
    exact ⟨by with_unfolding_all decide, by with_unfolding_all decide⟩
  rw [h1, h2, h3]
  exact ⟨rfl, rfl, rfl, rfl, rfl, rfl, rfl,
    fun hnone => by simp [getField, hnone]⟩

/-- C3, witness: the three failing deliveries at a concrete message with
no `session_id` field. -/
theorem C3_retry_dlq_witness :
    (handleMessage 3 false "1-0" [] (handleMessage 3 false "1-0" []
        (handleMessage 3 false "1-0" [] initialWorkerState))).dlq
        = [⟨[], "1-0", "3"⟩] ∧
    (handleMessage 3 false "1-0" [] (handleMessage 3 false "1-0" []
        (handleMessage 3 false "1-0" [] initialWorkerState))).statusUpdates
        = [⟨"unknown", "failed", "Exceeded 3 retries"⟩] := by
  have h := C3_retry_dlq "1-0" []
  have hu : getField [] "session_id" "unknown" = "unknown" :=
    h.2.2.2.2.2.2.2 rfl
  exact ⟨h.2.2.2.2.1, by rw [h.2.2.2.2.2.2.1, hu]⟩

/-! ## Claim C4 (fusion readiness guard and accumulator cleanup) -/

/-- C4: `_build_and_store_frames` runs only when, after the message's
accumulator writes, both `music_received` and `asr_final_received` are
truthy; and when the fusion completes (the resolved duration is nonzero,
i.e. the non-skip branch), the session's accumulator is deleted. -/
theorem C4_readiness_and_cleanup (dbD : Option ℚ) (tr : Tracker)
    (sid source : String) (payload : AlignPayload) :
    ((alignerProcess dbD tr sid source payload).buildInvoked = true →
      truthy (processWrite tr source payload).music_received = true ∧
      truthy (processWrite tr source payload).asr_final_received = true) ∧
    ((alignerProcess dbD tr sid source payload).buildInvoked = true →
      resolveDuration dbD
          (musicOf (processWrite tr source payload).music).features ≠ 0 →
      (alignerProcess dbD tr sid source payload).tracker = none) := by
  by_cases hr : (truthy (processWrite tr source payload).music_received &&
      truthy (processWrite tr source payload).asr_final_received) = true
  · have hkey : alignerProcess dbD tr sid source payload =
        { tracker := if (buildAndStore sid dbD
              (musicOf (processWrite tr source payload).music)
              (transcriptOf
                (processWrite tr source payload).asr_final)).trackerDeleted
            then none else some (processWrite tr source payload)
          buildInvoked := true
          effects := some (buildAndStore sid dbD
            (musicOf (processWrite tr source payload).music)
            (transcriptOf (processWrite tr source payload).asr_final)) } := by
      simp only [alignerProcess]
      rw [if_pos hr]
    constructor
    · intro _
      exact ⟨((Bool.and_eq_true _ _).mp hr).1,
        ((Bool.and_eq_true _ _).mp hr).2⟩
    · intro _ hz
      have hdel : (buildAndStore sid dbD
          (musicOf (processWrite tr source payload).music)
          (transcriptOf
            (processWrite tr source payload).asr_final)).trackerDeleted
          = true := by
        simp only [buildAndStore]
        rw [if_neg hz]
      rw [hkey]
      simp [hdel]
  · have hkey : alignerProcess dbD tr sid source payload =
        { tracker := some (processWrite tr source payload)
          buildInvoked := false, effects := none } := by
      simp only [alignerProcess]
      rw [if_neg hr]
    rw [hkey]
    exact ⟨fun h => absurd h (by simp), fun h => absurd h (by simp)⟩

/-- C4, witness: a tracker that already holds the music result receives
the final ASR message; the fusion runs (duration `1.0` from the session
row) and the accumulator is deleted. -/
theorem C4_readiness_and_cleanup_witness :
    (alignerProcess (some 1)
        { music := some (.music ⟨[], ⟨[], 0⟩, ⟨"", ""⟩, []⟩)
          music_received := some "1", asr_partials := [], asr_final := none
          asr_final_received := none }
        "s" "asr_final" (.transcript [])).tracker = none :=
  (C4_readiness_and_cleanup (some 1)
      { music := some (.music ⟨[], ⟨[], 0⟩, ⟨"", ""⟩, []⟩)
        music_received := some "1", asr_partials := [], asr_final := none
        asr_final_received := none }
      "s" "asr_final" (.transcript [])).2
    (by with_unfolding_all decide)
    (by with_unfolding_all decide)

/-! ## Claim C8 (skip when no duration can be determined) -/

/-- C8: when the session row yields no duration (missing row, NULL or
`0.0`) and the feature payload yields none either (no features, or a
zero estimate), `_build_and_store_frames` only warns: no frames are
deleted or inserted, the session row is not updated (in particular not
marked completed), nothing is published, and the tracker survives. -/
theorem C8_skip_without_duration (sid : String) (dbD : Option ℚ)
    (music : MusicPayload) (transcript : List TranscriptSeg)
    (hdb : dbD = none ∨ dbD = some 0)
    (hfeat : music.features = [] ∨
      ∃ f, music.features.getLast? = some f ∧ f.t + FRAME_RESOLUTION = 0) :
    buildAndStore sid dbD music transcript =
      { framesDeleted := false, framesInserted := [], sessionUpdate := none
        resultsPublished := [], statusPublished := [], trackerDeleted := false
        warned := true } := by
  have hd0 : dbD.getD 0 = 0 := by rcases hdb with rfl | rfl <;> rfl
  have hd : resolveDuration dbD music.features = 0 := by
    rw [resolveDuration, hd0]
    by_cases hf : music.features = []
    · simp [hf]
    · rcases hfeat with h | ⟨f, hlast, hzero⟩
      · exact absurd h hf
      · simp [hf, hlast, hzero]
  rw [buildAndStore, hd]
  rfl

/-- C8, witness: a ready session with no DB row and an empty feature
list is skipped. -/
theorem C8_skip_without_duration_witness :
    buildAndStore "s" none ⟨[], ⟨[], 0⟩, ⟨"", ""⟩, []⟩ [] =
      { framesDeleted := false, framesInserted := [], sessionUpdate := none
        resultsPublished := [], statusPublished := [], trackerDeleted := false
        warned := true } :=
  C8_skip_without_duration "s" none ⟨[], ⟨[], 0⟩, ⟨"", ""⟩, []⟩ []
    (Or.inl rfl) (Or.inl rfl)

/-! ## Claim C9 (best-effort fan-out and unconditional ack) -/

lemma regGet_regPrune (reg : Registry) (sid : String) (dead : List Conn) :
    regGet (regPrune reg sid dead) sid =
      (regGet reg sid).filter (fun c => !(dead.contains c)) := by
  induction reg with
  | nil => rfl
  | cons e reg ih =>
    by_cases he : (e.1 == sid) = true
    · simp only [regPrune, List.map_cons]
      rw [if_pos he]
      simp only [regGet]
      rw [List.find?_cons_of_pos
          (p := fun x : String × List Conn => x.1 == sid)
          (a := (e.1, e.2.filter (fun c => !(dead.contains c)))) _ he,
        List.find?_cons_of_pos
          (p := fun x : String × List Conn => x.1 == sid) (a := e) _ he]
      rfl
    · simp only [regPrune, List.map_cons]
      rw [if_neg he]
      simp only [regGet]
      rw [List.find?_cons_of_neg (p := fun x : String × List Conn => x.1 == sid) _ (by simp [he]),
        List.find?_cons_of_neg (p := fun x : String × List Conn => x.1 == sid) _ (by simp [he])]
      simpa [regGet, regPrune] using ih

/-- C9: `broadcast` attempts delivery to every connection registered for
the session; every connection whose send fails is pruned from the
registry, successful ones stay; and the relay acknowledges the message
unconditionally — also when no connection is registered at all. -/
theorem C9_broadcast_prune_ack (sendOk : Conn → Bool) (reg : Registry)
    (sid : String) :
    (broadcast sendOk reg sid).2.1 = regGet reg sid ∧
    (∀ c ∈ regGet reg sid, sendOk c = false →
      c ∉ regGet (broadcast sendOk reg sid).1 sid) ∧
    (∀ c ∈ regGet reg sid, sendOk c = true →
      c ∈ regGet (broadcast sendOk reg sid).1 sid) ∧
    (relayDispatch sendOk reg sid).2 = true := by
  refine ⟨rfl, ?_, ?_, rfl⟩
  · intro c hc hfail
    rw [show (broadcast sendOk reg sid).1 =
        regPrune reg sid ((regGet reg sid).filter (fun c => !(sendOk c)))
      from rfl, regGet_regPrune]
    intro hmem
    have h2 := (List.mem_filter.mp hmem).2
    have hcd : c ∈ (regGet reg sid).filter (fun c => !(sendOk c)) :=
      List.mem_filter.mpr ⟨hc, by simp [hfail]⟩
    simp [hcd] at h2
  · intro c hc hok
    rw [show (broadcast sendOk reg sid).1 =
        regPrune reg sid ((regGet reg sid).filter (fun c => !(sendOk c)))
      from rfl, regGet_regPrune]
    refine List.mem_filter.mpr ⟨hc, ?_⟩
    have hcd : c ∉ (regGet reg sid).filter (fun c => !(sendOk c)) := by
      intro hmem
      have := (List.mem_filter.mp hmem).2
      simp [hok] at this
    simp [hcd]

/-- C9, witness: session `"s"` has connections `1` and `2`; sends to `2`
fail.  Both are attempted, `2` is pruned, `1` survives, and the message
is acknowledged. -/
theorem C9_broadcast_prune_ack_witness :
    (broadcast (fun c => c == 1) [("s", [1, 2])] "s").2.1
        = regGet [("s", [1, 2])] "s" ∧
    (2 : Conn) ∉ regGet (broadcast (fun c => c == 1)
        [("s", [1, 2])] "s").1 "s" ∧
    (1 : Conn) ∈ regGet (broadcast (fun c => c == 1)
        [("s", [1, 2])] "s").1 "s" ∧
    (relayDispatch (fun c => c == 1) [("s", [1, 2])] "s").2 = true :=
  have h := C9_broadcast_prune_ack (fun c => c == 1) [("s", [1, 2])] "s"
  ⟨h.1,
    h.2.1 2 (by with_unfolding_all decide) (by with_unfolding_all decide),
    h.2.2.1 1 (by with_unfolding_all decide) (by with_unfolding_all decide),
    h.2.2.2⟩

end SAP
